import Mathlib

set_option maxRecDepth 40000

deriving instance DecidableEq for Except

/-!
Verification of the block-delivery-service event pipeline: discriminator
computation (SHA-256 based), log-line extraction (base64 payloads), borsh
decoding of the three order events, JSON normalisation, and the broadcast
fan-out semantics.  Bytes are modelled as `Nat` values below 256; 32- and
64-bit machine words as `Nat` reduced modulo the word size.
-/

namespace BlockDelivery

/-! ### SHA-256 (FIPS 180-4), executable over lists of byte-sized naturals -/

def add32 (a b : Nat) : Nat := (a + b) % 4294967296

def rotr32 (n x : Nat) : Nat := ((x >>> n) ||| (x <<< (32 - n))) % 4294967296

def shaCh (x y z : Nat) : Nat := (x &&& y) ^^^ ((x ^^^ 4294967295) &&& z)

def shaMaj (x y z : Nat) : Nat := (x &&& y) ^^^ (x &&& z) ^^^ (y &&& z)

def bsig0 (x : Nat) : Nat := rotr32 2 x ^^^ rotr32 13 x ^^^ rotr32 22 x

def bsig1 (x : Nat) : Nat := rotr32 6 x ^^^ rotr32 11 x ^^^ rotr32 25 x

def ssig0 (x : Nat) : Nat := rotr32 7 x ^^^ rotr32 18 x ^^^ (x >>> 3)

def ssig1 (x : Nat) : Nat := rotr32 17 x ^^^ rotr32 19 x ^^^ (x >>> 10)

def shaK : List Nat :=
  [1116352408, 1899447441, 3049323471, 3921009573, 961987163,
   1508970993, 2453635748, 2870763221, 3624381080, 310598401,
   607225278, 1426881987, 1925078388, 2162078206, 2614888103,
   3248222580, 3835390401, 4022224774, 264347078, 604807628,
   770255983, 1249150122, 1555081692, 1996064986, 2554220882,
   2821834349, 2952996808, 3210313671, 3336571891, 3584528711,
   113926993, 338241895, 666307205, 773529912, 1294757372,
   1396182291, 1695183700, 1986661051, 2177026350, 2456956037,
   2730485921, 2820302411, 3259730800, 3345764771, 3516065817,
   3600352804, 4094571909, 275423344, 430227734, 506948616,
   659060556, 883997877, 958139571, 1322822218, 1537002063,
   1747873779, 1955562222, 2024104815, 2227730452, 2361852424,
   2428436474, 2756734187, 3204031479, 3329325298]

/-- Big-endian serialisation of a 32-bit word to four bytes. -/
def u32be (x : Nat) : List Nat := [(x >>> 24) % 256, (x >>> 16) % 256, (x >>> 8) % 256, x % 256]

/-- Big-endian serialisation of a 64-bit word to eight bytes. -/
def u64be (x : Nat) : List Nat :=
  [(x >>> 56) % 256, (x >>> 48) % 256, (x >>> 40) % 256, (x >>> 32) % 256,
   (x >>> 24) % 256, (x >>> 16) % 256, (x >>> 8) % 256, x % 256]

/-- Group bytes into big-endian 32-bit words, four bytes per word. -/
def toWordsBE : List Nat → List Nat
  | b0 :: b1 :: b2 :: b3 :: rest =>
      (b0 * 16777216 + b1 * 65536 + b2 * 256 + b3) :: toWordsBE rest
  | _ => []

/-- Extend a 16-word message schedule by `n` extra words. -/
def extendW : List Nat → Nat → List Nat
  | ws, 0 => ws
  | ws, n + 1 =>
      let l := ws.length
      let w := add32 (add32 (ssig1 (ws.getD (l - 2) 0)) (ws.getD (l - 7) 0))
                     (add32 (ssig0 (ws.getD (l - 15) 0)) (ws.getD (l - 16) 0))
      extendW (ws ++ [w]) n

/-- The eight working registers of the compression loop. -/
structure Regs where
  a : Nat
  b : Nat
  c : Nat
  d : Nat
  e : Nat
  f : Nat
  g : Nat
  h : Nat

/-- One round of the SHA-256 compression loop. -/
def roundStep (r : Regs) (kw : Nat × Nat) : Regs :=
  let t1 := add32 r.h (add32 (bsig1 r.e) (add32 (shaCh r.e r.f r.g) (add32 kw.1 kw.2)))
  let t2 := add32 (bsig0 r.a) (shaMaj r.a r.b r.c)
  { a := add32 t1 t2, b := r.a, c := r.b, d := r.c,
    e := add32 r.d t1, f := r.e, g := r.f, h := r.g }

/-- The eight-word intermediate hash value. -/
structure Hash8 where
  h0 : Nat
  h1 : Nat
  h2 : Nat
  h3 : Nat
  h4 : Nat
  h5 : Nat
  h6 : Nat
  h7 : Nat

def shaInitH : Hash8 :=
  ⟨1779033703, 3144134277, 1013904242, 2773480762,
   1359893119, 2600822924, 528734635, 1541459225⟩

/-- Compress one 64-byte chunk into the running hash value. -/
def compressChunk (st : Hash8) (chunk : List Nat) : Hash8 :=
  let ws := extendW (toWordsBE chunk) 48
  let r := (shaK.zip ws).foldl roundStep ⟨st.h0, st.h1, st.h2, st.h3, st.h4, st.h5, st.h6, st.h7⟩
  ⟨add32 st.h0 r.a, add32 st.h1 r.b, add32 st.h2 r.c, add32 st.h3 r.d,
   add32 st.h4 r.e, add32 st.h5 r.f, add32 st.h6 r.g, add32 st.h7 r.h⟩

/-- SHA-256 padding: a 0x80 byte, zeros to 56 mod 64, then the bit length big-endian. -/
def shaPad (msg : List Nat) : List Nat :=
  msg ++ 128 :: (List.replicate ((119 - msg.length % 64) % 64) 0 ++ u64be (8 * msg.length))

/-- Split a byte list into 64-byte chunks; the fuel is an upper bound on the chunk count. -/
def chunks64 : Nat → List Nat → List (List Nat)
  | 0, _ => []
  | _ + 1, [] => []
  | f + 1, bs => bs.take 64 :: chunks64 f (bs.drop 64)

/-- The SHA-256 digest of a byte string, as its 32 bytes. -/
def sha256 (msg : List Nat) : List Nat :=
  let p := shaPad msg
  let st := (chunks64 p.length p).foldl compressChunk shaInitH
  u32be st.h0 ++ u32be st.h1 ++ u32be st.h2 ++ u32be st.h3 ++
  u32be st.h4 ++ u32be st.h5 ++ u32be st.h6 ++ u32be st.h7

/-! ### UTF-8 encoding of strings -/

/-- UTF-8 encoding of one character. -/
def utf8Char (c : Char) : List Nat :=
  let n := c.toNat
  if n < 128 then [n]
  else if n < 2048 then [192 + n / 64, 128 + n % 64]
  else if n < 65536 then [224 + n / 4096, 128 + (n / 64) % 64, 128 + n % 64]
  else [240 + n / 262144, 128 + (n / 4096) % 64, 128 + (n / 64) % 64, 128 + n % 64]

/-- The UTF-8 bytes of a string. -/
def strBytes (s : String) : List Nat := (s.data.map utf8Char).foldr (· ++ ·) []

/-! ### Anchor event discriminator (`event_discriminator` in the source) -/

/-- The Anchor event discriminator: the first 8 bytes of the SHA-256 digest of
the UTF-8 bytes of the string `"event:" ++ name`. -/
def event_discriminator (name : String) : List Nat :=
  (sha256 (strBytes ("event:" ++ name))).take 8

/-! ### Base64 (standard alphabet, canonical padding, no stray trailing bits) -/

def b64Alphabet : List Char :=
  "ABCDEFGHIJKLMNOPQRSTUVWXYZabcdefghijklmnopqrstuvwxyz0123456789+/".data

/-- Position of a character in an alphabet, if present. -/
def alphaIndex : List Char → Char → Option Nat
  | [], _ => none
  | a :: rest, c => if a = c then some 0 else (alphaIndex rest c).map (· + 1)

/-- Map every character to its alphabet value, failing on any foreign character. -/
def b64Values : List Char → Option (List Nat)
  | [] => some []
  | c :: rest =>
      match alphaIndex b64Alphabet c, b64Values rest with
      | some v, some vs => some (v :: vs)
      | _, _ => none

/-- Count and remove trailing padding characters. -/
def splitPad (cs : List Char) : List Char × Nat :=
  match cs.reverse with
  | c :: rest => if c = '=' then
      match rest with
      | c2 :: rest2 => if c2 = '=' then (rest2.reverse, 2) else (rest.reverse, 1)
      | [] => (rest.reverse, 1)
    else (cs, 0)
  | [] => (cs, 0)

/-- A number rendered as `len` big-endian bytes. -/
def natToBytesBE (len v : Nat) : List Nat :=
  (List.range len).map (fun i => (v >>> (8 * (len - 1 - i))) % 256)

/-- Standard base64 decoding with required canonical padding: the length must be a
multiple of 4, padding is at most two final `=` characters, every other character
must be in the alphabet, and bits left over after the last whole byte must be zero. -/
def base64Decode (s : String) : Option (List Nat) :=
  let cs := s.data
  if cs.length % 4 ≠ 0 then none
  else
    let bp := splitPad cs
    match b64Values bp.1 with
    | none => none
    | some vs =>
        let n := vs.length
        if n % 4 = 1 then none
        else
          let v := vs.foldl (fun acc d => acc * 64 + d) 0
          let extra := (6 * n) % 8
          if v % (2 ^ extra) ≠ 0 then none
          else some (natToBytesBE ((6 * n) / 8) (v >>> extra))

/-- Standard base64 encoding with padding. -/
def b64EncGroups : List Nat → List Char
  | [] => []
  | [b0] =>
      [b64Alphabet.getD (b0 / 4) 'A', b64Alphabet.getD (b0 % 4 * 16) 'A', '=', '=']
  | [b0, b1] =>
      [b64Alphabet.getD (b0 / 4) 'A', b64Alphabet.getD (b0 % 4 * 16 + b1 / 16) 'A',
       b64Alphabet.getD (b1 % 16 * 4) 'A', '=']
  | b0 :: b1 :: b2 :: rest =>
      b64Alphabet.getD (b0 / 4) 'A' :: b64Alphabet.getD (b0 % 4 * 16 + b1 / 16) 'A' ::
      b64Alphabet.getD (b1 % 16 * 4 + b2 / 64) 'A' :: b64Alphabet.getD (b2 % 64) 'A' ::
      b64EncGroups rest

def base64Encode (bs : List Nat) : String := String.mk (b64EncGroups bs)

/-! ### Base58 rendering of 32-byte account identifiers (`Pubkey::to_string`) -/

def b58Alphabet : List Char :=
  "123456789ABCDEFGHJKLMNPQRSTUVWXYZabcdefghijkmnopqrstuvwxyz".data

/-- Little-endian base-58 digits of a number; the fuel bounds the digit count
(44 digits cover any 32-byte value). -/
def b58Digits : Nat → Nat → List Nat
  | 0, _ => []
  | f + 1, n => if n = 0 then [] else n % 58 :: b58Digits f (n / 58)

/-- A byte list read as a big-endian number. -/
def beVal (bs : List Nat) : Nat := bs.foldl (fun acc b => acc * 256 + b) 0

/-- The number of leading zero bytes. -/
def leadZeros : List Nat → Nat
  | [] => 0
  | b :: rest => if b = 0 then leadZeros rest + 1 else 0

/-- Base58 rendering of a 32-byte identifier: one `1` per leading zero byte, then
the big-endian base-58 digits of the value. -/
def pubkeyToString (bs : List Nat) : String :=
  String.mk (List.replicate (leadZeros bs) '1' ++
    ((b58Digits 44 (beVal bs)).reverse.map (fun d => b58Alphabet.getD d '1')))

/-! ### Anchor event structs and their borsh deserialisation -/

structure OrderCreated where
  order : List Nat
  order_id : Nat
  customer : List Nat
  amount : Nat
deriving DecidableEq, Repr

structure OrderAccepted where
  order : List Nat
  courier : List Nat
deriving DecidableEq, Repr

structure OrderCompleted where
  order : List Nat
  order_id : Nat
  courier : List Nat
  amount : Nat
deriving DecidableEq, Repr

/-- Read exactly `n` bytes off the front of the input. -/
def takeN (n : Nat) (bs : List Nat) : Option (List Nat × List Nat) :=
  if n ≤ bs.length then some (bs.take n, bs.drop n) else none

/-- A byte list read as a little-endian number. -/
def leVal (bs : List Nat) : Nat := bs.foldr (fun b acc => b + 256 * acc) 0

/-- Read a little-endian u64 off the front of the input. -/
def readU64 (bs : List Nat) : Option (Nat × List Nat) :=
  (takeN 8 bs).map (fun p => (leVal p.1, p.2))

/-- Little-endian 8-byte serialisation of a 64-bit word. -/
def u64le (n : Nat) : List Nat :=
  [n % 256, (n >>> 8) % 256, (n >>> 16) % 256, (n >>> 24) % 256,
   (n >>> 32) % 256, (n >>> 40) % 256, (n >>> 48) % 256, (n >>> 56) % 256]

def deserOrderCreated (bs : List Nat) : Option (OrderCreated × List Nat) :=
  match takeN 32 bs with
  | none => none
  | some (order, r1) =>
    match readU64 r1 with
    | none => none
    | some (oid, r2) =>
      match takeN 32 r2 with
      | none => none
      | some (customer, r3) =>
        match readU64 r3 with
        | none => none
        | some (amt, r4) => some (⟨order, oid, customer, amt⟩, r4)

def deserOrderAccepted (bs : List Nat) : Option (OrderAccepted × List Nat) :=
  match takeN 32 bs with
  | none => none
  | some (order, r1) =>
    match takeN 32 r1 with
    | none => none
    | some (courier, r2) => some (⟨order, courier⟩, r2)

def deserOrderCompleted (bs : List Nat) : Option (OrderCompleted × List Nat) :=
  match takeN 32 bs with
  | none => none
  | some (order, r1) =>
    match readU64 r1 with
    | none => none
    | some (oid, r2) =>
      match takeN 32 r2 with
      | none => none
      | some (courier, r3) =>
        match readU64 r3 with
        | none => none
        | some (amt, r4) => some (⟨order, oid, courier, amt⟩, r4)

/-- `try_from_slice`: a full deserialisation that must consume every input byte. -/
def orderCreated_from_slice (bs : List Nat) : Option OrderCreated :=
  match deserOrderCreated bs with
  | some (e, []) => some e
  | _ => none

def orderAccepted_from_slice (bs : List Nat) : Option OrderAccepted :=
  match deserOrderAccepted bs with
  | some (e, []) => some e
  | _ => none

def orderCompleted_from_slice (bs : List Nat) : Option OrderCompleted :=
  match deserOrderCompleted bs with
  | some (e, []) => some e
  | _ => none

/-- The borsh encoding of an `OrderCreated` value, fields in declared order. -/
def encodeOrderCreated (e : OrderCreated) : List Nat :=
  e.order ++ (u64le e.order_id ++ (e.customer ++ u64le e.amount))

/-! ### Web JSON events and their serde serialisation -/

inductive WebEvent where
  | OrderCreated (order : String) (order_id : Nat) (customer : String) (amount : Nat)
  | OrderAccepted (order : String) (courier : String)
  | OrderCompleted (order : String) (order_id : Nat) (courier : String) (amount : Nat)
deriving DecidableEq, Repr

/-- A hex digit character. -/
def hexDigit (n : Nat) : Char :=
  if n < 10 then Char.ofNat (48 + n) else Char.ofNat (87 + n)

/-- JSON string escaping of one character, as serde does it: quote and backslash
get a backslash, the short control escapes are used where they exist, all other
control characters become a six-character unicode escape. -/
def jsonEscapeChar (c : Char) : List Char :=
  if c = Char.ofNat 34 then [Char.ofNat 92, Char.ofNat 34]
  else if c = Char.ofNat 92 then [Char.ofNat 92, Char.ofNat 92]
  else if c.toNat = 8 then [Char.ofNat 92, 'b']
  else if c.toNat = 9 then [Char.ofNat 92, 't']
  else if c.toNat = 10 then [Char.ofNat 92, 'n']
  else if c.toNat = 12 then [Char.ofNat 92, 'f']
  else if c.toNat = 13 then [Char.ofNat 92, 'r']
  else if c.toNat < 32 then
    [Char.ofNat 92, 'u', '0', '0', hexDigit (c.toNat / 16), hexDigit (c.toNat % 16)]
  else [c]

/-- A JSON string literal: quoted, characters escaped. -/
def jsonStr (s : String) : String :=
  String.mk (Char.ofNat 34 :: s.data.foldr (fun c acc => jsonEscapeChar c ++ acc) [Char.ofNat 34])

/-- serde_json serialisation of a `WebEvent` with internal tag `type`: the tag
field first, then the variant fields in declared order.  The `Except` mirrors
`serde_json::Result`; no variant of this type can reach an error. -/
def serdeToString (e : WebEvent) : Except String String :=
  match e with
  | .OrderCreated o oid c amt =>
      .ok ("\x7b\"type\":\"OrderCreated\",\"order\":" ++ jsonStr o ++
           ",\"order_id\":" ++ toString oid ++ ",\"customer\":" ++ jsonStr c ++
           ",\"amount\":" ++ toString amt ++ "\x7d")
  | .OrderAccepted o c =>
      .ok ("\x7b\"type\":\"OrderAccepted\",\"order\":" ++ jsonStr o ++
           ",\"courier\":" ++ jsonStr c ++ "\x7d")
  | .OrderCompleted o oid c amt =>
      .ok ("\x7b\"type\":\"OrderCompleted\",\"order\":" ++ jsonStr o ++
           ",\"order_id\":" ++ toString oid ++ ",\"courier\":" ++ jsonStr c ++
           ",\"amount\":" ++ toString amt ++ "\x7d")

/-! ### Dispatcher and the listen pipeline -/

def normCreated (e : OrderCreated) : WebEvent :=
  .OrderCreated (pubkeyToString e.order) e.order_id (pubkeyToString e.customer) e.amount

def normAccepted (e : OrderAccepted) : WebEvent :=
  .OrderAccepted (pubkeyToString e.order) (pubkeyToString e.courier)

def normCompleted (e : OrderCompleted) : WebEvent :=
  .OrderCompleted (pubkeyToString e.order) e.order_id (pubkeyToString e.courier) e.amount

/-- Tag dispatch: the registered schemas tried in declared order; the first
matching tag is the only one whose deserialisation is attempted. -/
def dispatch (disc data : List Nat) : Option WebEvent :=
  if disc = event_discriminator "OrderCreated" then
    (orderCreated_from_slice data).map normCreated
  else if disc = event_discriminator "OrderAccepted" then
    (orderAccepted_from_slice data).map normAccepted
  else if disc = event_discriminator "OrderCompleted" then
    (orderCompleted_from_slice data).map normCompleted
  else none

def progMarker : String := "Program data: "

/-- `strip_prefix` of the fixed marker, on the character level (the marker is
ASCII, so characters and bytes agree). -/
def dropMarker (line : String) : Option String :=
  if line.data.take progMarker.length = progMarker.data then
    some (String.mk (line.data.drop progMarker.length))
  else none

/-- The extractor: marker, base64, minimum length, then split into tag and body. -/
def extractEnvelope (line : String) : Option (List Nat × List Nat) :=
  match dropMarker line with
  | none => none
  | some b64 =>
    match base64Decode b64 with
    | none => none
    | some bytes => if bytes.length < 8 then none else some (bytes.take 8, bytes.drop 8)

/-- One log line through extractor and dispatcher: at most one event. -/
def processLine (line : String) : Option WebEvent :=
  match extractEnvelope line with
  | none => none
  | some (disc, data) => dispatch disc data

/-! ### Broadcast channel (tokio `broadcast`) -/

structure Chan where
  cap : Nat
  nrecv : Nat
  sent : List WebEvent
deriving DecidableEq, Repr

/-- The smallest power of two that is at least `n` (`1` for `n ≤ 1`), by
halving; the fuel argument bounds the recursion depth and `n` itself always
suffices.  Mirrors Rust's `usize::next_power_of_two` on positive inputs. -/
def nextPowTwoAux : Nat → Nat → Nat
  | 0, _ => 1
  | f + 1, n => if n ≤ 1 then 1 else 2 * nextPowTwoAux f ((n + 1) / 2)

def nextPowTwo (n : Nat) : Nat := nextPowTwoAux n n

/-- `broadcast::channel(capacity)`: tokio rounds the requested capacity up to
the next power of two for the shared ring, so the per-subscriber bound is that
rounded value, not the requested one. -/
def newChan (capacity : Nat) : Chan := ⟨nextPowTwo capacity, 0, []⟩

/-- `subscribe`: one more receiver, whose cursor starts at the current end of the
stream (no history back-fill). -/
def chanSubscribe (ch : Chan) : Chan × Nat :=
  ({ ch with nrecv := ch.nrecv + 1 }, ch.sent.length)

/-- `send`: fails (returning the event to the caller) when no receiver is
subscribed, otherwise appends to the stream. -/
def chanSend (ch : Chan) (e : WebEvent) : Chan × Bool :=
  if ch.nrecv = 0 then (ch, false) else ({ ch with sent := ch.sent ++ [e] }, true)

/-- What a receiver whose cursor is `cursor` can still receive: the suffix of the
stream from its cursor, clipped to the channel capacity (older entries have been
overwritten and are lost to it). -/
def available (ch : Chan) (cursor : Nat) : List WebEvent :=
  ch.sent.drop (max cursor (ch.sent.length - ch.cap))

/-- The channel created by `start_server`: `broadcast::channel(100)`, whose
ring therefore holds 128 messages. -/
def start_server_channel : Chan := newChan 100

/-- The listen loop over a list of log lines: each decoded event is sent, a
failed send is discarded, and processing always continues with the next line. -/
def listenLines (lines : List String) (ch : Chan) : Chan :=
  lines.foldl (fun c l =>
    match processLine l with
    | some e => (chanSend c e).1
    | none => c) ch

/-! ### Subscriber session (`handle_socket`) -/

/-- One session step: serialise the pulled event; on error skip, otherwise
attempt exactly one send of the JSON text. -/
def sessionStep (e : WebEvent) : Option String :=
  match serdeToString e with
  | .ok json => some json
  | .error _ => none

/-- The frames a session attempts to send for the events it pulls, in order. -/
def sessionOutputs (queue : List WebEvent) : List String :=
  queue.filterMap sessionStep

/-! ### Helper lemmas -/

theorem sha256_length (msg : List Nat) : (sha256 msg).length = 32 := by
  simp [sha256, u32be]

theorem discCreated_eq :
    event_discriminator "OrderCreated" = [224, 1, 229, 63, 254, 60, 190, 159] := by decide

theorem discAccepted_eq :
    event_discriminator "OrderAccepted" = [221, 229, 40, 47, 184, 34, 195, 162] := by decide

theorem discCompleted_eq :
    event_discriminator "OrderCompleted" = [90, 77, 52, 248, 56, 233, 110, 197] := by decide

/-! ### C1: discriminator computation -/

/-- C1: `event_discriminator` returns exactly the first 8 bytes of the SHA-256
digest of the UTF-8 bytes of `"event:" ++ name`; the result is always 8 bytes
long, the function is total over all names, and it is deterministic. -/
theorem event_discriminator_spec (name : String) :
    event_discriminator name = (sha256 (strBytes ("event:" ++ name))).take 8 ∧
    (event_discriminator name).length = 8 ∧
    ∀ name2 : String, name = name2 →
      event_discriminator name = event_discriminator name2 := by
  refine ⟨rfl, ?_, fun name2 h => by rw [h]⟩
  simp [event_discriminator, List.length_take, sha256_length]

theorem event_discriminator_spec_witness :
    event_discriminator "OrderCreated" = event_discriminator "OrderCreated" ∧
    (event_discriminator "OrderCreated").length = 8 :=
  ⟨(event_discriminator_spec "OrderCreated").2.2 "OrderCreated" rfl,
   (event_discriminator_spec "OrderCreated").2.1⟩

/-! ### C2: log line extraction -/

/-- C2: a line without the marker yields no envelope; with the marker, malformed
base64 or fewer than 8 decoded bytes yields no envelope; otherwise the envelope
is the first 8 bytes as tag and the rest as body.  A line that yields no
envelope leaves the pipeline state unchanged and the next lines are processed. -/
theorem extractor_spec :
    (∀ line : String, line.data.take progMarker.length ≠ progMarker.data →
        extractEnvelope line = none) ∧
    (∀ line rest : String, dropMarker line = some rest → base64Decode rest = none →
        extractEnvelope line = none) ∧
    (∀ (line rest : String) (bytes : List Nat), dropMarker line = some rest →
        base64Decode rest = some bytes → bytes.length < 8 → extractEnvelope line = none) ∧
    (∀ (line rest : String) (bytes : List Nat), dropMarker line = some rest →
        base64Decode rest = some bytes → 8 ≤ bytes.length →
        extractEnvelope line = some (bytes.take 8, bytes.drop 8)) ∧
    (∀ (line : String) (ls : List String) (ch : Chan), extractEnvelope line = none →
        listenLines (line :: ls) ch = listenLines ls ch) := by
  refine ⟨?_, ?_, ?_, ?_, ?_⟩
  · intro line h; simp [extractEnvelope, dropMarker, h]
  · intro line rest h1 h2; simp [extractEnvelope, h1, h2]
  · intro line rest bytes h1 h2 h3; simp [extractEnvelope, h1, h2, h3]
  · intro line rest bytes h1 h2 h4
    have h4' : ¬ bytes.length < 8 := by omega
    simp [extractEnvelope, h1, h2, h4']
  · intro line ls ch h; simp [listenLines, processLine, h]

theorem extractor_spec_witness :
    extractEnvelope "foo" = none ∧
    extractEnvelope "Program data: !!!!" = none ∧
    extractEnvelope "Program data: AAAA" = none ∧
    extractEnvelope "Program data: AAAAAAAAAAAA" = some ([0, 0, 0, 0, 0, 0, 0, 0], [0]) ∧
    listenLines ["foo"] (newChan 100) = listenLines [] (newChan 100) :=
  ⟨extractor_spec.1 "foo" (by decide),
   extractor_spec.2.1 "Program data: !!!!" "!!!!" (by decide) (by decide),
   extractor_spec.2.2.1 "Program data: AAAA" "AAAA" [0, 0, 0]
     (by decide) (by decide) (by decide),
   extractor_spec.2.2.2.1 "Program data: AAAAAAAAAAAA" "AAAAAAAAAAAA"
     [0, 0, 0, 0, 0, 0, 0, 0, 0] (by decide) (by decide) (by decide),
   extractor_spec.2.2.2.2 "foo" [] (newChan 100) (extractor_spec.1 "foo" (by decide))⟩

/-! ### Borsh decoder characterisations -/

theorem leVal_u64le (n : Nat) (h : n < 18446744073709551616) : leVal (u64le n) = n := by
  simp [leVal, u64le, Nat.shiftRight_eq_div_pow]
  omega

theorem deserOrderCreated_eq (bs : List Nat) :
    deserOrderCreated bs =
      if 80 ≤ bs.length then
        some (⟨bs.take 32, leVal ((bs.drop 32).take 8), (bs.drop 40).take 32,
               leVal ((bs.drop 72).take 8)⟩, bs.drop 80)
      else none := by
  rcases Nat.lt_or_ge bs.length 32 with hA | hA
  · simp [deserOrderCreated, takeN, show ¬ (32 ≤ bs.length) by omega,
          show ¬ (80 ≤ bs.length) by omega]
  rcases Nat.lt_or_ge bs.length 40 with hB | hB
  · simp [deserOrderCreated, takeN, readU64, List.length_drop, hA,
          show ¬ (8 ≤ bs.length - 32) by omega, show ¬ (80 ≤ bs.length) by omega]
  rcases Nat.lt_or_ge bs.length 72 with hC | hC
  · simp [deserOrderCreated, takeN, readU64, List.length_drop, hA,
          show 8 ≤ bs.length - 32 by omega, show ¬ (32 ≤ bs.length - 40) by omega,
          show ¬ (80 ≤ bs.length) by omega]
  rcases Nat.lt_or_ge bs.length 80 with hD | hD
  · simp [deserOrderCreated, takeN, readU64, List.length_drop, hA,
          show 8 ≤ bs.length - 32 by omega, show 32 ≤ bs.length - 40 by omega,
          show ¬ (8 ≤ bs.length - 72) by omega, show ¬ (80 ≤ bs.length) by omega]
  · simp [deserOrderCreated, takeN, readU64, List.length_drop, hA,
          show 8 ≤ bs.length - 32 by omega, show 32 ≤ bs.length - 40 by omega,
          show 8 ≤ bs.length - 72 by omega, show 80 ≤ bs.length from hD]

theorem deserOrderAccepted_eq (bs : List Nat) :
    deserOrderAccepted bs =
      if 64 ≤ bs.length then
        some (⟨bs.take 32, (bs.drop 32).take 32⟩, bs.drop 64)
      else none := by
  rcases Nat.lt_or_ge bs.length 32 with hA | hA
  · simp [deserOrderAccepted, takeN, show ¬ (32 ≤ bs.length) by omega,
          show ¬ (64 ≤ bs.length) by omega]
  rcases Nat.lt_or_ge bs.length 64 with hB | hB
  · simp [deserOrderAccepted, takeN, List.length_drop, hA,
          show ¬ (32 ≤ bs.length - 32) by omega, show ¬ (64 ≤ bs.length) by omega]
  · simp [deserOrderAccepted, takeN, List.length_drop, hA,
          show 32 ≤ bs.length - 32 by omega, show 64 ≤ bs.length from hB]

theorem deserOrderCompleted_eq (bs : List Nat) :
    deserOrderCompleted bs =
      if 80 ≤ bs.length then
        some (⟨bs.take 32, leVal ((bs.drop 32).take 8), (bs.drop 40).take 32,
               leVal ((bs.drop 72).take 8)⟩, bs.drop 80)
      else none := by
  rcases Nat.lt_or_ge bs.length 32 with hA | hA
  · simp [deserOrderCompleted, takeN, show ¬ (32 ≤ bs.length) by omega,
          show ¬ (80 ≤ bs.length) by omega]
  rcases Nat.lt_or_ge bs.length 40 with hB | hB
  · simp [deserOrderCompleted, takeN, readU64, List.length_drop, hA,
          show ¬ (8 ≤ bs.length - 32) by omega, show ¬ (80 ≤ bs.length) by omega]
  rcases Nat.lt_or_ge bs.length 72 with hC | hC
  · simp [deserOrderCompleted, takeN, readU64, List.length_drop, hA,
          show 8 ≤ bs.length - 32 by omega, show ¬ (32 ≤ bs.length - 40) by omega,
          show ¬ (80 ≤ bs.length) by omega]
  rcases Nat.lt_or_ge bs.length 80 with hD | hD
  · simp [deserOrderCompleted, takeN, readU64, List.length_drop, hA,
          show 8 ≤ bs.length - 32 by omega, show 32 ≤ bs.length - 40 by omega,
          show ¬ (8 ≤ bs.length - 72) by omega, show ¬ (80 ≤ bs.length) by omega]
  · simp [deserOrderCompleted, takeN, readU64, List.length_drop, hA,
          show 8 ≤ bs.length - 32 by omega, show 32 ≤ bs.length - 40 by omega,
          show 8 ≤ bs.length - 72 by omega, show 80 ≤ bs.length from hD]

theorem orderCreated_from_slice_eq (bs : List Nat) :
    orderCreated_from_slice bs =
      if bs.length = 80 then
        some ⟨bs.take 32, leVal ((bs.drop 32).take 8), (bs.drop 40).take 32,
              leVal ((bs.drop 72).take 8)⟩
      else none := by
  rw [orderCreated_from_slice, deserOrderCreated_eq]
  by_cases h : 80 ≤ bs.length
  · rw [if_pos h]
    by_cases h80 : bs.length = 80
    · rw [if_pos h80]
      have hnil : bs.drop 80 = [] := List.drop_eq_nil_of_le (by omega)
      rw [hnil]
    · rw [if_neg h80]
      cases hd : bs.drop 80 with
      | nil =>
          exfalso
          have := congrArg List.length hd
          simp [List.length_drop] at this
          omega
      | cons a t => rfl
  · rw [if_neg h, if_neg (by omega)]

theorem orderAccepted_from_slice_eq (bs : List Nat) :
    orderAccepted_from_slice bs =
      if bs.length = 64 then some ⟨bs.take 32, (bs.drop 32).take 32⟩ else none := by
  rw [orderAccepted_from_slice, deserOrderAccepted_eq]
  by_cases h : 64 ≤ bs.length
  · rw [if_pos h]
    by_cases h64 : bs.length = 64
    · rw [if_pos h64]
      have hnil : bs.drop 64 = [] := List.drop_eq_nil_of_le (by omega)
      rw [hnil]
    · rw [if_neg h64]
      cases hd : bs.drop 64 with
      | nil =>
          exfalso
          have := congrArg List.length hd
          simp [List.length_drop] at this
          omega
      | cons a t => rfl
  · rw [if_neg h, if_neg (by omega)]

theorem orderCompleted_from_slice_eq (bs : List Nat) :
    orderCompleted_from_slice bs =
      if bs.length = 80 then
        some ⟨bs.take 32, leVal ((bs.drop 32).take 8), (bs.drop 40).take 32,
              leVal ((bs.drop 72).take 8)⟩
      else none := by
  rw [orderCompleted_from_slice, deserOrderCompleted_eq]
  by_cases h : 80 ≤ bs.length
  · rw [if_pos h]
    by_cases h80 : bs.length = 80
    · rw [if_pos h80]
      have hnil : bs.drop 80 = [] := List.drop_eq_nil_of_le (by omega)
      rw [hnil]
    · rw [if_neg h80]
      cases hd : bs.drop 80 with
      | nil =>
          exfalso
          have := congrArg List.length hd
          simp [List.length_drop] at this
          omega
      | cons a t => rfl
  · rw [if_neg h, if_neg (by omega)]

/-! ### C3: unknown tags and wrong body widths are dropped -/

/-- C3: a tag matching no registered schema, or a body whose length differs from
the schema's fixed width (80 for OrderCreated, 64 for OrderAccepted, 80 for
OrderCompleted), emits no event; a line producing no event leaves the channel
untouched and the following lines are still processed. -/
theorem dispatcher_drop_spec :
    (∀ tag body : List Nat, tag ≠ event_discriminator "OrderCreated" →
        tag ≠ event_discriminator "OrderAccepted" →
        tag ≠ event_discriminator "OrderCompleted" → dispatch tag body = none) ∧
    (∀ body : List Nat, body.length ≠ 80 →
        dispatch (event_discriminator "OrderCreated") body = none) ∧
    (∀ body : List Nat, body.length ≠ 64 →
        dispatch (event_discriminator "OrderAccepted") body = none) ∧
    (∀ body : List Nat, body.length ≠ 80 →
        dispatch (event_discriminator "OrderCompleted") body = none) ∧
    (∀ (line : String) (ls : List String) (ch : Chan), processLine line = none →
        listenLines (line :: ls) ch = listenLines ls ch) := by
  have hAC : event_discriminator "OrderAccepted" ≠ event_discriminator "OrderCreated" := by
    rw [discAccepted_eq, discCreated_eq]; decide
  have hPC : event_discriminator "OrderCompleted" ≠ event_discriminator "OrderCreated" := by
    rw [discCompleted_eq, discCreated_eq]; decide
  have hPA : event_discriminator "OrderCompleted" ≠ event_discriminator "OrderAccepted" := by
    rw [discCompleted_eq, discAccepted_eq]; decide
  refine ⟨?_, ?_, ?_, ?_, ?_⟩
  · intro tag body h1 h2 h3; simp [dispatch, h1, h2, h3]
  · intro body h; simp [dispatch, orderCreated_from_slice_eq, h]
  · intro body h; simp [dispatch, hAC, orderAccepted_from_slice_eq, h]
  · intro body h; simp [dispatch, hPC, hPA, orderCompleted_from_slice_eq, h]
  · intro line ls ch h; simp [listenLines, h]

theorem dispatcher_drop_spec_witness :
    dispatch [0, 0, 0, 0, 0, 0, 0, 0] [] = none ∧
    dispatch (event_discriminator "OrderCreated") [] = none ∧
    dispatch (event_discriminator "OrderAccepted") [] = none ∧
    dispatch (event_discriminator "OrderCompleted") [] = none ∧
    listenLines ["Program data: AAAA"] (newChan 100) = listenLines [] (newChan 100) :=
  ⟨dispatcher_drop_spec.1 _ [] (by rw [discCreated_eq]; decide)
     (by rw [discAccepted_eq]; decide) (by rw [discCompleted_eq]; decide),
   dispatcher_drop_spec.2.1 [] (by decide),
   dispatcher_drop_spec.2.2.1 [] (by decide),
   dispatcher_drop_spec.2.2.2.1 [] (by decide),
   dispatcher_drop_spec.2.2.2.2 "Program data: AAAA" [] (newChan 100) (by decide)⟩

/-! ### C4: OrderCreated round trip -/

/-- C4: encoding any 32-byte order identifier, u64 order id, 32-byte customer
identifier and u64 amount with the canonical binary encoding and decoding the
80-byte body reproduces the exact field values. -/
theorem orderCreated_roundtrip (order customer : List Nat) (oid amt : Nat)
    (ho : order.length = 32) (hc : customer.length = 32)
    (hoid : oid < 18446744073709551616) (hamt : amt < 18446744073709551616) :
    orderCreated_from_slice (encodeOrderCreated ⟨order, oid, customer, amt⟩) =
      some ⟨order, oid, customer, amt⟩ := by
  have hu8 : ∀ n : Nat, (u64le n).length = 8 := fun n => rfl
  have hlen : (encodeOrderCreated ⟨order, oid, customer, amt⟩).length = 80 := by
    simp [encodeOrderCreated, ho, hc, hu8]
  rw [orderCreated_from_slice_eq, if_pos hlen]
  have hassoc : encodeOrderCreated ⟨order, oid, customer, amt⟩ =
      order ++ (u64le oid ++ (customer ++ u64le amt)) := rfl
  have e1 : (encodeOrderCreated ⟨order, oid, customer, amt⟩).take 32 = order := by
    rw [hassoc, ← ho]; exact List.take_left order _
  have e2 : (encodeOrderCreated ⟨order, oid, customer, amt⟩).drop 32 =
      u64le oid ++ (customer ++ u64le amt) := by
    rw [hassoc, ← ho]; exact List.drop_left order _
  have e3 : (encodeOrderCreated ⟨order, oid, customer, amt⟩).drop 40 =
      customer ++ u64le amt := by
    have hsplit : encodeOrderCreated ⟨order, oid, customer, amt⟩ =
        (order ++ u64le oid) ++ (customer ++ u64le amt) := by
      rw [hassoc, List.append_assoc]
    have hl : (order ++ u64le oid).length = 40 := by simp [ho, hu8]
    rw [hsplit, ← hl]; exact List.drop_left _ _
  have e4 : (encodeOrderCreated ⟨order, oid, customer, amt⟩).drop 72 = u64le amt := by
    have hsplit : encodeOrderCreated ⟨order, oid, customer, amt⟩ =
        ((order ++ u64le oid) ++ customer) ++ u64le amt := by
      rw [hassoc, List.append_assoc, List.append_assoc]
    have hl : ((order ++ u64le oid) ++ customer).length = 72 := by simp [ho, hc, hu8]
    rw [hsplit, ← hl]; exact List.drop_left _ _
  rw [e1, e2, e3, e4]
  have e5 : (u64le oid ++ (customer ++ u64le amt)).take 8 = u64le oid :=
    List.take_left (u64le oid) _
  have e6 : (customer ++ u64le amt).take 32 = customer := by
    rw [← hc]; exact List.take_left customer _
  have e7 : (u64le amt).take 8 = u64le amt := rfl
  rw [e5, e6, e7, leVal_u64le oid hoid, leVal_u64le amt hamt]

theorem orderCreated_roundtrip_witness :
    orderCreated_from_slice
        (encodeOrderCreated ⟨List.replicate 32 0, 42, List.replicate 32 7, 1000⟩) =
      some ⟨List.replicate 32 0, 42, List.replicate 32 7, 1000⟩ :=
  orderCreated_roundtrip _ _ _ _ (by decide) (by decide) (by decide) (by decide)

/-! ### C5: fixed dispatch order, one event per envelope -/

/-- C5: the three registered tags are pairwise distinct; the dispatcher tries
them in the fixed order OrderCreated, OrderAccepted, OrderCompleted and only the
first matching schema's deserialisation is attempted; per envelope at most one
event is emitted, and a successful decode emits exactly one. -/
theorem dispatch_order_spec :
    (event_discriminator "OrderCreated" ≠ event_discriminator "OrderAccepted" ∧
     event_discriminator "OrderCreated" ≠ event_discriminator "OrderCompleted" ∧
     event_discriminator "OrderAccepted" ≠ event_discriminator "OrderCompleted") ∧
    (∀ body : List Nat, dispatch (event_discriminator "OrderCreated") body =
        (orderCreated_from_slice body).map normCreated) ∧
    (∀ body : List Nat, dispatch (event_discriminator "OrderAccepted") body =
        (orderAccepted_from_slice body).map normAccepted) ∧
    (∀ body : List Nat, dispatch (event_discriminator "OrderCompleted") body =
        (orderCompleted_from_slice body).map normCompleted) ∧
    (∀ (tag body : List Nat) (e : WebEvent), dispatch tag body = some e →
        (dispatch tag body).toList = [e]) ∧
    (∀ tag body : List Nat, (dispatch tag body).toList.length ≤ 1) := by
  have hCA : event_discriminator "OrderCreated" ≠ event_discriminator "OrderAccepted" := by
    rw [discCreated_eq, discAccepted_eq]; decide
  have hCP : event_discriminator "OrderCreated" ≠ event_discriminator "OrderCompleted" := by
    rw [discCreated_eq, discCompleted_eq]; decide
  have hAP : event_discriminator "OrderAccepted" ≠ event_discriminator "OrderCompleted" := by
    rw [discAccepted_eq, discCompleted_eq]; decide
  refine ⟨⟨hCA, hCP, hAP⟩, ?_, ?_, ?_, ?_, ?_⟩
  · intro body; simp [dispatch]
  · intro body; simp [dispatch, Ne.symm hCA]
  · intro body; simp [dispatch, Ne.symm hCP, Ne.symm hAP]
  · intro tag body e h; simp [h]
  · intro tag body; cases h : dispatch tag body <;> simp [h]

theorem dispatch_order_spec_witness :
    (dispatch (event_discriminator "OrderCreated")
        (encodeOrderCreated ⟨List.replicate 32 0, 5, List.replicate 32 0, 6⟩)).toList =
      [normCreated ⟨List.replicate 32 0, 5, List.replicate 32 0, 6⟩] :=
  dispatch_order_spec.2.2.2.2.1 (event_discriminator "OrderCreated")
    (encodeOrderCreated ⟨List.replicate 32 0, 5, List.replicate 32 0, 6⟩)
    (normCreated ⟨List.replicate 32 0, 5, List.replicate 32 0, 6⟩) (by decide)

/-! ### C6: normalised wire format -/

theorem b58Alphabet_length : b58Alphabet.length = 58 := by decide

theorem escape_b58_lt : ∀ d : Nat, d < 58 →
    jsonEscapeChar (b58Alphabet.getD d '1') = [b58Alphabet.getD d '1'] := by decide

theorem escape_b58_getD (d : Nat) :
    jsonEscapeChar (b58Alphabet.getD d '1') = [b58Alphabet.getD d '1'] := by
  by_cases h : d < 58
  · exact escape_b58_lt d h
  · rw [List.getD_eq_default _ _ (by rw [b58Alphabet_length]; omega)]
    decide

theorem pubkey_chars_escape (bs : List Nat) :
    ∀ c ∈ (pubkeyToString bs).data, jsonEscapeChar c = [c] := by
  intro c hc
  have hdata : (pubkeyToString bs).data =
      List.replicate (leadZeros bs) '1' ++
        ((b58Digits 44 (beVal bs)).reverse.map (fun d => b58Alphabet.getD d '1')) := rfl
  rw [hdata] at hc
  rcases List.mem_append.mp hc with h | h
  · rcases List.mem_replicate.mp h with ⟨-, rfl⟩
    decide
  · rcases List.mem_map.mp h with ⟨d, -, rfl⟩
    exact escape_b58_getD d

theorem foldr_escape_eq (L : List Char) (h : ∀ c ∈ L, jsonEscapeChar c = [c]) :
    L.foldr (fun c acc => jsonEscapeChar c ++ acc) [Char.ofNat 34] = L ++ [Char.ofNat 34] := by
  induction L with
  | nil => rfl
  | cons c t ih =>
      have hc := h c (List.mem_cons_self c t)
      have iht := ih (fun x hx => h x (List.mem_cons_of_mem c hx))
      simp [hc, iht]

theorem jsonStr_pubkey (bs : List Nat) :
    jsonStr (pubkeyToString bs) = "\"" ++ pubkeyToString bs ++ "\"" := by
  apply String.ext
  have h1 : (jsonStr (pubkeyToString bs)).data =
      Char.ofNat 34 :: ((pubkeyToString bs).data.foldr
        (fun c acc => jsonEscapeChar c ++ acc) [Char.ofNat 34]) := rfl
  rw [h1, foldr_escape_eq _ (pubkey_chars_escape bs),
      String.data_append, String.data_append]
  simp

/-- C6: every normalised event serialises to a single self-contained JSON object
whose `type` field names the event kind, whose 32-byte identifiers appear in
their canonical base58 text form, and whose numeric fields pass through
unchanged as decimal numbers. -/
theorem normalizer_wire_spec :
    (∀ e : OrderCreated, serdeToString (normCreated e) =
        .ok ("\x7b\"type\":\"OrderCreated\",\"order\":" ++
             ("\"" ++ pubkeyToString e.order ++ "\"") ++
             ",\"order_id\":" ++ toString e.order_id ++ ",\"customer\":" ++
             ("\"" ++ pubkeyToString e.customer ++ "\"") ++
             ",\"amount\":" ++ toString e.amount ++ "\x7d")) ∧
    (∀ e : OrderAccepted, serdeToString (normAccepted e) =
        .ok ("\x7b\"type\":\"OrderAccepted\",\"order\":" ++
             ("\"" ++ pubkeyToString e.order ++ "\"") ++
             ",\"courier\":" ++ ("\"" ++ pubkeyToString e.courier ++ "\"") ++ "\x7d")) ∧
    (∀ e : OrderCompleted, serdeToString (normCompleted e) =
        .ok ("\x7b\"type\":\"OrderCompleted\",\"order\":" ++
             ("\"" ++ pubkeyToString e.order ++ "\"") ++
             ",\"order_id\":" ++ toString e.order_id ++ ",\"courier\":" ++
             ("\"" ++ pubkeyToString e.courier ++ "\"") ++
             ",\"amount\":" ++ toString e.amount ++ "\x7d")) := by
  refine ⟨fun e => ?_, fun e => ?_, fun e => ?_⟩ <;>
    simp only [serdeToString, normCreated, normAccepted, normCompleted, jsonStr_pubkey]

/-! ### C7: end-to-end scenario with two subscribers -/

def c7Payload : List Nat :=
  event_discriminator "OrderCreated" ++
    (List.replicate 32 0 ++ (u64le 42 ++ (List.replicate 32 0 ++ u64le 1000)))

def c7Line : String := "Program data: " ++ base64Encode c7Payload

def c7Event : WebEvent :=
  .OrderCreated "11111111111111111111111111111111" 42
    "11111111111111111111111111111111" 1000

/-- C7: the log line carrying the base64 OrderCreated payload with order id 42,
an all-zero order and customer identifier, and amount 1000 decodes to the
expected event; its frame is the expected JSON object with the canonical zero
identifier; with two subscribers connected, a send succeeds and both can
receive exactly that event. -/
theorem c7_scenario :
    processLine c7Line = some c7Event ∧
    serdeToString c7Event =
      .ok "\x7b\"type\":\"OrderCreated\",\"order\":\"11111111111111111111111111111111\",\"order_id\":42,\"customer\":\"11111111111111111111111111111111\",\"amount\":1000\x7d" ∧
    (let sub1 := chanSubscribe start_server_channel
     let sub2 := chanSubscribe sub1.1
     let after := chanSend sub2.1 c7Event
     after.2 = true ∧ available after.1 sub1.2 = [c7Event] ∧
       available after.1 sub2.2 = [c7Event]) :=
  ⟨by decide, by decide, by decide⟩

/-! ### C8: broadcast fan-out semantics -/

def evA : WebEvent := .OrderAccepted "a" "b"

def evB : WebEvent := .OrderAccepted "c" "d"

def chW : Chan := ⟨1, 1, [evA]⟩

/-- C8 counterexample: the channel `start_server` builds does not have ring
capacity 100 — tokio rounds `broadcast::channel(100)` up to the next power of
two, 128 — and accordingly a publish onto a 100-message backlog does not yet
drop the oldest message, as a capacity of exactly 100 would force. -/
theorem broadcast_cap_counterexample :
    start_server_channel.cap ≠ 100 ∧ start_server_channel.cap = 128 ∧
    available (chanSend ⟨start_server_channel.cap, 1, List.replicate 100 evA⟩ evB).1 0 =
      List.replicate 100 evA ++ [evB] ∧
    available (chanSend ⟨start_server_channel.cap, 1, List.replicate 100 evA⟩ evB).1 0 ≠
      (List.replicate 100 evA).drop 1 ++ [evB] := by decide

/-- C8 (amended): the channel built by the server has ring capacity 128, the
requested 100 rounded up to the next power of two; a new subscriber starts with
no backlog; what a subscriber can still receive is bounded by the capacity;
with at least one receiver, a publish succeeds without blocking (it is a total
function), appends the event for every subscriber with room, and for a
subscriber whose view is full drops exactly the oldest entry of that view, in
publish order. -/
theorem broadcast_spec (ch : Chan) (c : Nat) (e : WebEvent)
    (hcap : 0 < ch.cap) (hc : c ≤ ch.sent.length) :
    start_server_channel.cap = 128 ∧
    available (chanSubscribe ch).1 (chanSubscribe ch).2 = [] ∧
    (available ch c).length ≤ ch.cap ∧
    (ch.nrecv ≠ 0 →
      (chanSend ch e).2 = true ∧
      ((available ch c).length < ch.cap →
        available (chanSend ch e).1 c = available ch c ++ [e]) ∧
      ((available ch c).length = ch.cap →
        available (chanSend ch e).1 c = (available ch c).drop 1 ++ [e])) := by
  obtain ⟨cap, nr, sent⟩ := ch
  simp only at hcap hc
  refine ⟨by decide, ?_, ?_, ?_⟩
  · exact List.drop_eq_nil_of_le (Nat.le_max_left _ _)
  · simp only [available, List.length_drop]
    omega
  · intro hnr
    refine ⟨by simp [chanSend, hnr], ?_, ?_⟩
    · intro hlt
      simp only [available, List.length_drop] at hlt
      simp only [chanSend, if_neg hnr, available, List.length_append,
                 List.length_cons, List.length_nil]
      have h1 : max c (sent.length - cap) = c := by omega
      have h2 : max c (sent.length + (0 + 1) - cap) = c := by omega
      rw [h1, h2, List.drop_append_of_le_length hc]
    · intro heq
      simp only [available, List.length_drop] at heq
      simp only [chanSend, if_neg hnr, available, List.length_append,
                 List.length_cons, List.length_nil]
      have h3 : max c (sent.length - cap) = sent.length - cap := by omega
      have h4 : max c (sent.length + (0 + 1) - cap) = sent.length - cap + 1 := by omega
      rw [h3, h4, List.drop_append_of_le_length (by omega), List.drop_drop]

theorem broadcast_spec_witness :
    (0 < chW.cap ∧ 0 ≤ chW.sent.length) ∧
    (start_server_channel.cap = 128 ∧
     available (chanSubscribe chW).1 (chanSubscribe chW).2 = [] ∧
     (available chW 0).length ≤ chW.cap ∧
     (chW.nrecv ≠ 0 →
       (chanSend chW evB).2 = true ∧
       ((available chW 0).length < chW.cap →
         available (chanSend chW evB).1 0 = available chW 0 ++ [evB]) ∧
       ((available chW 0).length = chW.cap →
         available (chanSend chW evB).1 0 = (available chW 0).drop 1 ++ [evB]))) :=
  ⟨⟨by decide, by decide⟩, broadcast_spec chW 0 evB (by decide) (by decide)⟩

/-! ### C9: decoded event with zero subscribers -/

/-- C9: when no subscriber is connected, the send of a decoded event fails, the
failure is ignored (the channel state is unchanged and no error is surfaced),
and the pipeline processes the remaining lines exactly as if the line had not
produced an event. -/
theorem zero_subscribers_spec (ch : Chan) (l : String) (ls : List String) (e : WebEvent)
    (h0 : ch.nrecv = 0) (he : processLine l = some e) :
    (chanSend ch e).2 = false ∧ (chanSend ch e).1 = ch ∧
    listenLines (l :: ls) ch = listenLines ls ch := by
  refine ⟨by simp [chanSend, h0], by simp [chanSend, h0], ?_⟩
  simp [listenLines, he, chanSend, h0]

theorem zero_subscribers_spec_witness :
    (chanSend (newChan 100) c7Event).2 = false ∧
    (chanSend (newChan 100) c7Event).1 = newChan 100 ∧
    listenLines [c7Line] (newChan 100) = listenLines [] (newChan 100) :=
  zero_subscribers_spec (newChan 100) c7Line [] c7Event (by decide) (by decide)

/-! ### C10: JSON serialisation is total, one send attempt per pulled event -/

/-- C10: serialisation of a `WebEvent` succeeds for all three variants, so the
session's skip-on-serialisation-error branch is unreachable: every event a
connected session pulls from its queue results in exactly one send attempt. -/
theorem serialization_total_spec :
    (∀ e : WebEvent, ∃ json : String,
        serdeToString e = .ok json ∧ sessionStep e = some json) ∧
    (∀ queue : List WebEvent, (sessionOutputs queue).length = queue.length) := by
  have hstep : ∀ e : WebEvent, ∃ json : String,
      serdeToString e = .ok json ∧ sessionStep e = some json := by
    intro e
    cases e with
    | OrderCreated o oid c amt => exact ⟨_, rfl, rfl⟩
    | OrderAccepted o c => exact ⟨_, rfl, rfl⟩
    | OrderCompleted o oid c amt => exact ⟨_, rfl, rfl⟩
  refine ⟨hstep, ?_⟩
  intro queue
  induction queue with
  | nil => rfl
  | cons e q ih =>
      obtain ⟨j, -, hs⟩ := hstep e
      simp [sessionOutputs, List.filterMap_cons, hs] at ih ⊢
      exact ih

end BlockDelivery
